import Mathlib

/-!
Shallow embedding of the bus-seat-manage-api backend.

The repository consists of two Express route files (`src/index.js`, the
baseline variant, and `src/api/index.js`, the authenticated variant) over a
Prisma/PostgreSQL datastore whose schema and migration are also in the
sources.  Both variants implement the same trip/passenger handlers; the
definitions below are translated from `src/api/index.js` (the baseline
variant's corresponding handlers are textually identical up to the auth
middleware, which is outside the domain logic the claims address).

The datastore is modelled as two lists of rows.  The persistence-layer
constraints (primary keys, the unique index on `cpf`, the foreign key
`Passenger.tripId -> Trip.id ON DELETE CASCADE`) come from the migration SQL
and the Prisma schema in the sources.
-/

/-- Value of a JSON field as received in a request body.  The handler for
payment updates inspects the body field with a runtime type test
(`typeof hasPaid !== "boolean"`), so the body value must be modelled as a
dynamically typed JSON value, not as a Lean `Bool`. -/
inductive JVal where
  | jstr (v : String)
  | jnum (v : Rat)
  | jbool (v : Bool)
  | jnull
  | jobj (fields : List (String × JVal))
deriving Repr

/-- Enumerated bus size class, from the Prisma schema enum `BusType`. -/
inductive BusType where
  | small
  | medium
  | large
deriving DecidableEq, Repr

/-- Serialization of the enum value, as Prisma returns it in JSON. -/
def BusType.toName : BusType → String
  | .small => "small"
  | .medium => "medium"
  | .large => "large"

/-- Row of the `Trip` table (Prisma model `Trip`). -/
structure Trip where
  id : String
  destination : String
  departureDate : String
  departureTime : String
  price : Rat
  busType : BusType
deriving DecidableEq, Repr

/-- Row of the `Passenger` table (Prisma model `Passenger`). -/
structure Passenger where
  id : String
  name : String
  cpf : String
  seatNumber : String
  hasPaid : Bool
  tripId : String
deriving DecidableEq, Repr

/-- The persisted state: the two tables, rows in insertion order. -/
structure DB where
  trips : List Trip
  passengers : List Passenger
deriving DecidableEq, Repr

/-- The empty datastore. -/
def DB.empty : DB := ⟨[], []⟩

/-- Lookup of `prisma.trip.findUnique({ where: { id: tripId } })`. -/
def findTrip (db : DB) (tripId : String) : Option Trip :=
  db.trips.find? (fun t => t.id == tripId)

/-- Lookup of `prisma.passenger.findUnique({ where: { id: passengerId } })`. -/
def findPassenger (db : DB) (passengerId : String) : Option Passenger :=
  db.passengers.find? (fun p => p.id == passengerId)

/-- Effect of `prisma.passenger.update({ where: { id }, data: { hasPaid } })`
on the stored rows: the row with the given primary key gets the new flag. -/
def updateHasPaid (db : DB) (passengerId : String) (b : Bool) : DB :=
  { db with
    passengers :=
      db.passengers.map fun p =>
        if p.id = passengerId then { p with hasPaid := b } else p }

/-- Effect of `prisma.passenger.delete({ where: { id } })` on the stored
rows: the row with the given primary key is removed. -/
def deletePassengerRow (db : DB) (passengerId : String) : DB :=
  { db with passengers := db.passengers.filter (fun p => ¬ p.id = passengerId) }

/-- Outcome of `PUT /api/trips/:tripId/passengers/:passengerId/payment`. -/
inductive PayResult where
  | ok (p : Passenger)
  | invalidValue
  | passengerNotFound
  | wrongTrip
deriving DecidableEq, Repr

/-- HTTP status the handler sends for each outcome. -/
def PayResult.status : PayResult → Nat
  | .ok _ => 200
  | .invalidValue => 400
  | .passengerNotFound => 404
  | .wrongTrip => 400

/-- Handler of `PUT /api/trips/:tripId/passengers/:passengerId/payment`
(`src/api/index.js` lines 236-266; identical logic in `src/index.js` lines
97-133): reject a non-boolean body value, then look the passenger up by id,
reject a missing passenger, reject an ownership mismatch, otherwise update
the flag and return the updated row. -/
def setPaymentStatus (db : DB) (tripId passengerId : String) (hasPaid : JVal) :
    PayResult × DB :=
  match hasPaid with
  | .jbool b =>
    match findPassenger db passengerId with
    | none => (.passengerNotFound, db)
    | some p =>
      if p.tripId ≠ tripId then
        (.wrongTrip, db)
      else
        (.ok { p with hasPaid := b }, updateHasPaid db passengerId b)
  | _ => (.invalidValue, db)

/-- Outcome of `DELETE /api/trips/:tripId/passengers/:passengerId`.  The
success case carries no body (`res.status(204).send()`). -/
inductive DeleteResult where
  | noContent
  | passengerNotFound
  | wrongTrip
deriving DecidableEq, Repr

/-- HTTP status the handler sends for each outcome. -/
def DeleteResult.status : DeleteResult → Nat
  | .noContent => 204
  | .passengerNotFound => 404
  | .wrongTrip => 400

/-- Handler of `DELETE /api/trips/:tripId/passengers/:passengerId`
(`src/api/index.js` lines 268-292): look the passenger up by id, reject a
missing passenger, reject an ownership mismatch, otherwise delete. -/
def removePassenger (db : DB) (tripId passengerId : String) :
    DeleteResult × DB :=
  match findPassenger db passengerId with
  | none => (.passengerNotFound, db)
  | some p =>
    if p.tripId ≠ tripId then
      (.wrongTrip, db)
    else
      (.noContent, deletePassengerRow db passengerId)

/-- Handler of `GET /api/trips/:tripId/passengers` (`src/api/index.js`
lines 224-234): `prisma.passenger.findMany({ where: { tripId } })`, always
answered with `res.json(...)`, i.e. status 200. -/
def listPassengers (db : DB) (tripId : String) : List Passenger :=
  db.passengers.filter (fun p => p.tripId == tripId)

/-- Outcome of `POST /api/trips/:tripId/passengers`.  The handler performs
no check of its own: it calls `prisma.passenger.create` directly and any
constraint violation raised by the datastore is caught and answered with
status 500. -/
inductive AddResult where
  | created (p : Passenger)
  | persistenceError
deriving DecidableEq, Repr

/-- HTTP status the handler sends for each outcome. -/
def AddResult.status : AddResult → Nat
  | .created _ => 201
  | .persistenceError => 500

/-- Handler of `POST /api/trips/:tripId/passengers` (`src/api/index.js`
lines 202-222) combined with the datastore constraints of the migration SQL
(`Passenger_pkey` primary key, `Passenger_cpf_key` unique index,
`Passenger_tripId_fkey` foreign key): the insert succeeds only when the
fresh primary key is unused, the `cpf` does not collide with any stored
passenger, and the referenced trip exists; every violation surfaces as a
generic 500 and leaves the store untouched.  `newId` stands for the
`uuidv4()` value the handler generates. -/
def addPassenger (db : DB) (tripId newId name cpf seatNumber : String)
    (hasPaid : Bool) : AddResult × DB :=
  if db.passengers.any (fun q => q.cpf == cpf) then
    (.persistenceError, db)
  else if db.passengers.any (fun q => q.id == newId) then
    (.persistenceError, db)
  else if ¬ db.trips.any (fun t => t.id == tripId) then
    (.persistenceError, db)
  else
    let p : Passenger := ⟨newId, name, cpf, seatNumber, hasPaid, tripId⟩
    (.created p, { db with passengers := db.passengers ++ [p] })

/-- Outcome of `POST /api/trips`. -/
inductive CreateTripResult where
  | created (t : Trip)
  | persistenceError
deriving DecidableEq, Repr

/-- Handler of `POST /api/trips` (`src/api/index.js` lines 157-174) combined
with the `Trip_pkey` primary-key constraint of the migration SQL: the insert
succeeds only when the fresh id is unused.  `newId` stands for the
`uuidv4()` value the handler generates. -/
def createTrip (db : DB) (newId destination departureDate departureTime : String)
    (price : Rat) (busType : BusType) : CreateTripResult × DB :=
  if db.trips.any (fun t => t.id == newId) then
    (.persistenceError, db)
  else
    let t : Trip := ⟨newId, destination, departureDate, departureTime, price, busType⟩
    (.created t, { db with trips := db.trips ++ [t] })

/-- Effect of a `DELETE` on the `Trip` table under the migration's foreign
key `Passenger_tripId_fkey ... ON DELETE CASCADE` (`src/unnamed/part_000`
line 32): the trip row is removed and every passenger row referencing it is
removed with it.  No HTTP endpoint exposes this; it is the database-level
cascade path. -/
def deleteTripCascade (db : DB) (tripId : String) : DB :=
  { trips := db.trips.filter (fun t => ¬ t.id = tripId),
    passengers := db.passengers.filter (fun p => ¬ p.tripId = tripId) }

/-- One state-changing request (or database-level cascade delete) against
the store.  Read-only endpoints do not change the state and are omitted. -/
inductive Op where
  | createTrip (newId destination departureDate departureTime : String)
      (price : Rat) (busType : BusType)
  | addPassenger (tripId newId name cpf seatNumber : String) (hasPaid : Bool)
  | setPayment (tripId passengerId : String) (hasPaid : JVal)
  | removePassenger (tripId passengerId : String)
  | deleteTrip (tripId : String)

/-- State reached after executing one operation (the response is dropped). -/
def applyOp (db : DB) : Op → DB
  | .createTrip newId dest dd dt price bt => (createTrip db newId dest dd dt price bt).2
  | .addPassenger tid newId name cpf seat paid => (addPassenger db tid newId name cpf seat paid).2
  | .setPayment tid pid v => (setPaymentStatus db tid pid v).2
  | .removePassenger tid pid => (removePassenger db tid pid).2
  | .deleteTrip tid => deleteTripCascade db tid

/-- State reached from the empty store by a sequence of operations. -/
def runOps (ops : List Op) : DB :=
  ops.foldl applyOp DB.empty

/-- A state is reachable when some operation sequence produces it from the
empty store. -/
def Reachable (db : DB) : Prop :=
  ∃ ops : List Op, runOps ops = db

/-- Datastore invariant: primary keys of both tables are pairwise distinct,
the `cpf` column is globally unique, and every passenger references an
existing trip. -/
structure DBInv (db : DB) : Prop where
  tripIdsNodup : (db.trips.map Trip.id).Nodup
  passengerIdsNodup : (db.passengers.map Passenger.id).Nodup
  cpfNodup : (db.passengers.map Passenger.cpf).Nodup
  refInt : ∀ p ∈ db.passengers, ∃ t ∈ db.trips, t.id = p.tripId

/-- JSON serialization of a trip row as `res.json` sends it for
`GET /api/trips`: exactly the table columns, nothing derived.  The object is
modelled as its field list. -/
def Trip.toJson (t : Trip) : List (String × JVal) :=
  [ ("id", .jstr t.id),
    ("destination", .jstr t.destination),
    ("departureDate", .jstr t.departureDate),
    ("departureTime", .jstr t.departureTime),
    ("price", .jnum t.price),
    ("busType", .jstr t.busType.toName) ]

/-- Handler of `GET /api/trips` in the authenticated variant
(`src/api/index.js` lines 176-183): `prisma.trip.findMany()` with no
`orderBy`, no `include` and no post-processing, serialized row by row. -/
def listTrips (db : DB) : List (List (String × JVal)) :=
  db.trips.map Trip.toJson

/-- Fixed seat capacity per bus size class as the specification describes
it (small=20, medium=30, large=50).  No such table exists anywhere in the
sources; it is stated here only to express the claim being checked. -/
def totalSeats : BusType → Nat
  | .small => 20
  | .medium => 30
  | .large => 50

/-- Count of passengers linked to a trip at query time. -/
def occupiedSeats (db : DB) (tripId : String) : Nat :=
  (db.passengers.filter (fun p => p.tripId == tripId)).length

/-- The seatsInfo object the specification says each listed trip carries. -/
def seatsInfoSpec (db : DB) (t : Trip) : JVal :=
  .jobj
    [ ("totalSeats", .jnum (totalSeats t.busType)),
      ("occupiedSeats", .jnum (occupiedSeats db t.id)),
      ("availableSeats", .jnum ((totalSeats t.busType : Int) - occupiedSeats db t.id)) ]

/-- A trip list is ordered by `departureDate` descending when consecutive
entries are non-increasing in the string order of that column. -/
def sortedByDepartureDateDesc (ts : List Trip) : Prop :=
  ts.Chain' (fun a b => b.departureDate ≤ a.departureDate)

/-- Statement of the claim that the authenticated variant's trip listing is
augmented with `seatsInfo` and ordered by departure date descending, stated
over the serialized response so that the presence of the extra field is
expressible. -/
def listTripsEnhancedClaim : Prop :=
  ∀ db : DB,
    (∀ t ∈ db.trips,
      ∃ o ∈ listTrips db,
        o.lookup "seatsInfo" = some (seatsInfoSpec db t) ∧
        o.lookup "id" = some (.jstr t.id)) ∧
    sortedByDepartureDateDesc db.trips

/-- One drawing command issued to the PDF document.  `text` carries the
font size set before the call and the absolute x/y position; `titleText`
is the flow-positioned centered title; `sepLine` is the stroked separator
under the header row.  The vertical position `y` is measured from
`tableTop`, the flow position the code captures in `doc.y` after the title
(its concrete value is font-metric state of the rendering backend, so it is
kept as a parameter). -/
inductive PdfCmd where
  | titleText (s : String)
  | text (fontSize : Nat) (s : String) (x : Int) (y : Int)
  | sepLine
deriving DecidableEq, Repr

/-- Data row drawn for the passenger at position `idx` in the trip's roster
(`src/api/index.js` lines 336-345): four cells at
`y = tableTop + (idx + 2) * 20`, name at x=50, cpf at x=250, seat at x=400,
and the payment flag as the localized token Sim/Nao at x=480. -/
def passengerRow (tableTop : Int) (idx : Nat) (p : Passenger) : List PdfCmd :=
  let y : Int := tableTop + ((idx : Int) + 2) * 20
  [ .text 10 p.name 50 y,
    .text 10 p.cpf 250 y,
    .text 10 p.seatNumber 400 y,
    .text 10 (if p.hasPaid then "Sim" else "Não") 480 y ]

/-- Sequence of drawing commands the manifest renderer issues for a trip and
its roster (`src/api/index.js` lines 317-345): centered title, header row at
`tableTop`, separator line, then one data row per passenger. -/
def renderManifest (trip : Trip) (passengers : List Passenger) (tableTop : Int) :
    List PdfCmd :=
  [ .titleText ("Passageiros da Viagem para " ++ trip.destination),
    .text 12 "Nome" 50 tableTop,
    .text 12 "CPF" 250 tableTop,
    .text 12 "Assento" 400 tableTop,
    .text 12 "Pago" 480 tableTop,
    .sepLine ]
  ++ (passengers.enum.map fun ip => passengerRow tableTop ip.1 ip.2).flatten

/-- Response of the manifest endpoint.  The `notFound` case is produced by
the early `return res.status(404)...` taken before the `PDFDocument` is
constructed and before any header is set, so it carries neither headers nor
drawing commands; the `pdf` case carries the two headers the handler sets
and the document's command stream, sent with status 200. -/
inductive PdfResponse where
  | notFound
  | pdf (headers : List (String × String)) (cmds : List PdfCmd)
deriving DecidableEq, Repr

/-- HTTP status of the manifest response. -/
def PdfResponse.status : PdfResponse → Nat
  | .notFound => 404
  | .pdf _ _ => 200

/-- Response headers set by the manifest handler; none in the 404 case. -/
def PdfResponse.headers : PdfResponse → List (String × String)
  | .notFound => []
  | .pdf hs _ => hs

/-- Handler of `GET /api/trips/:tripId/passengers/pdf` (`src/api/index.js`
lines 295-352): load the trip with its passengers, answer 404 when it does
not exist, otherwise set the PDF headers and stream the rendered document.
The `include: \x7b passengers: true \x7d` loads exactly the rows whose
`tripId` matches. -/
def getPassengersPdf (db : DB) (tripId : String) (tableTop : Int) : PdfResponse :=
  match findTrip db tripId with
  | none => .notFound
  | some trip =>
    .pdf
      [ ("Content-Type", "application/pdf"),
        ("Content-Disposition", "attachment; filename=passageiros_" ++ tripId ++ ".pdf") ]
      (renderManifest trip (db.passengers.filter (fun p => p.tripId == trip.id)) tableTop)

/-- Data rows of a command stream: the cells drawn with the 10-point font
are exactly the per-passenger cells. -/
def dataCells (cmds : List PdfCmd) : List PdfCmd :=
  cmds.filter fun c =>
    match c with
    | .text 10 _ _ _ => true
    | _ => false

/-! Helper lemmas about the store operations. -/

/-- Updating the payment flag does not change a row's primary key. -/
theorem updRow_id (pid : String) (b : Bool) (p : Passenger) :
    (if p.id = pid then { p with hasPaid := b } else p).id = p.id := by
  split <;> rfl

/-- Updating the payment flag commutes with the primary-key lookup. -/
theorem findPassenger_updateHasPaid (db : DB) (pid : String) (b : Bool) :
    findPassenger (updateHasPaid db pid b) pid =
      (findPassenger db pid).map
        (fun p => if p.id = pid then { p with hasPaid := b } else p) := by
  unfold findPassenger updateHasPaid
  rw [List.find?_map]
  apply congrArg
  have hfun :
      ((fun p : Passenger => p.id == pid) ∘
        fun p => if p.id = pid then { p with hasPaid := b } else p) =
      (fun p : Passenger => p.id == pid) := by
    funext p
    simp only [Function.comp_apply, updRow_id]
  rw [hfun]

/-- Writing the same payment flag twice is the same as writing it once. -/
theorem updateHasPaid_idem (db : DB) (pid : String) (b : Bool) :
    updateHasPaid (updateHasPaid db pid b) pid b = updateHasPaid db pid b := by
  unfold updateHasPaid
  simp only [List.map_map]
  apply congrArg
  apply List.map_congr_left
  intro p _
  by_cases h : p.id = pid <;> simp [Function.comp_apply, h]

/-- CLAIM C1.  Check order and short-circuiting of the payment-status
handler: a non-boolean body value yields 400 whatever the store contains; a
boolean body with an unknown passenger yields 404; a known passenger owned
by a different trip yields 400; otherwise the flag is written and the
updated passenger is returned with 200.  Error branches leave the store
unchanged. -/
theorem setPaymentStatus_check_order (db : DB) (tripId passengerId : String) :
    ((∀ v : JVal, (∀ b : Bool, v ≠ .jbool b) →
        setPaymentStatus db tripId passengerId v = (.invalidValue, db) ∧
        (setPaymentStatus db tripId passengerId v).1.status = 400) ∧
     (∀ b : Bool, findPassenger db passengerId = none →
        setPaymentStatus db tripId passengerId (.jbool b) = (.passengerNotFound, db) ∧
        (setPaymentStatus db tripId passengerId (.jbool b)).1.status = 404) ∧
     (∀ b : Bool, ∀ p : Passenger, findPassenger db passengerId = some p →
        p.tripId ≠ tripId →
        setPaymentStatus db tripId passengerId (.jbool b) = (.wrongTrip, db) ∧
        (setPaymentStatus db tripId passengerId (.jbool b)).1.status = 400) ∧
     (∀ b : Bool, ∀ p : Passenger, findPassenger db passengerId = some p →
        p.tripId = tripId →
        setPaymentStatus db tripId passengerId (.jbool b) =
          (.ok { p with hasPaid := b }, updateHasPaid db passengerId b) ∧
        ({ p with hasPaid := b } : Passenger).hasPaid = b ∧
        (setPaymentStatus db tripId passengerId (.jbool b)).1.status = 200)) := by
  refine ⟨?_, ?_, ?_, ?_⟩
  · intro v hv
    cases v with
    | jbool b => exact absurd rfl (hv b)
    | jstr s => exact ⟨rfl, rfl⟩
    | jnum n => exact ⟨rfl, rfl⟩
    | jnull => exact ⟨rfl, rfl⟩
    | jobj fs => exact ⟨rfl, rfl⟩
  · intro b h
    simp [setPaymentStatus, h, PayResult.status]
  · intro b p h hne
    simp [setPaymentStatus, h, hne, PayResult.status]
  · intro b p h heq
    simp [setPaymentStatus, h, heq, PayResult.status]

/-- Concrete store used by the witnesses: one trip and one passenger owned
by it, plus a second trip and a passenger owned by that second trip. -/
def exTrip1 : Trip := ⟨"t1", "Rio", "2024-05-01", "08:00", 100, .medium⟩

/-- Second concrete trip, with a later departure date than `exTrip1`. -/
def exTrip2 : Trip := ⟨"t2", "Recife", "2024-06-01", "09:30", 150, .large⟩

/-- Concrete passenger owned by trip `t1`. -/
def exP1 : Passenger := ⟨"p1", "Ana", "111", "12", false, "t1"⟩

/-- Concrete passenger owned by trip `t2`. -/
def exP2 : Passenger := ⟨"p2", "Bia", "222", "07", true, "t2"⟩

/-- Concrete store holding both trips and both passengers. -/
def exDB : DB := ⟨[exTrip1, exTrip2], [exP1, exP2]⟩

/-- Witness for C1: every branch of the check-order theorem evaluated on
the concrete store. -/
theorem setPaymentStatus_check_order_witness :
    (setPaymentStatus exDB "t1" "p1" (.jstr "yes") = (.invalidValue, exDB)) ∧
    (setPaymentStatus exDB "t1" "nobody" (.jbool true) = (.passengerNotFound, exDB)) ∧
    (setPaymentStatus exDB "t1" "p2" (.jbool true) = (.wrongTrip, exDB)) ∧
    (setPaymentStatus exDB "t1" "p1" (.jbool true) =
      (.ok { exP1 with hasPaid := true }, updateHasPaid exDB "p1" true)) := by
  refine ⟨?_, ?_, ?_, ?_⟩
  · exact ((setPaymentStatus_check_order exDB "t1" "p1").1 (.jstr "yes")
      (fun b h => JVal.noConfusion h)).1
  · exact ((setPaymentStatus_check_order exDB "t1" "nobody").2.1 true (by decide)).1
  · exact ((setPaymentStatus_check_order exDB "t1" "p2").2.2.1 true exP2 (by decide)
      (by decide)).1
  · exact ((setPaymentStatus_check_order exDB "t1" "p1").2.2.2 true exP1 (by decide)
      (by decide)).1

/-- CLAIM C3.  Check order of the passenger-delete handler: an unknown
passenger yields 404, an ownership mismatch yields 400, and on both error
branches the store is returned unchanged (the mismatching passenger in
particular stays stored); otherwise the row is deleted and the handler
answers 204 with no body. -/
theorem removePassenger_check_order (db : DB) (tripId passengerId : String) :
    ((findPassenger db passengerId = none →
        removePassenger db tripId passengerId = (.passengerNotFound, db) ∧
        (removePassenger db tripId passengerId).1.status = 404) ∧
     (∀ p : Passenger, findPassenger db passengerId = some p →
        p.tripId ≠ tripId →
        removePassenger db tripId passengerId = (.wrongTrip, db) ∧
        (removePassenger db tripId passengerId).1.status = 400 ∧
        p ∈ db.passengers) ∧
     (∀ p : Passenger, findPassenger db passengerId = some p →
        p.tripId = tripId →
        removePassenger db tripId passengerId =
          (.noContent, deletePassengerRow db passengerId) ∧
        (removePassenger db tripId passengerId).1.status = 204 ∧
        ∀ q ∈ (removePassenger db tripId passengerId).2.passengers,
          q.id ≠ passengerId)) := by
  refine ⟨?_, ?_, ?_⟩
  · intro h
    simp [removePassenger, h, DeleteResult.status]
  · intro p h hne
    refine ⟨?_, ?_, ?_⟩
    · simp [removePassenger, h, hne]
    · simp [removePassenger, h, hne, DeleteResult.status]
    · exact List.mem_of_find?_eq_some h
  · intro p h heq
    refine ⟨?_, ?_, ?_⟩
    · simp [removePassenger, h, heq]
    · simp [removePassenger, h, heq, DeleteResult.status]
    · intro q hq
      simp [removePassenger, h, heq, deletePassengerRow] at hq
      exact hq.2

/-- Witness for C3: all three branches evaluated on the concrete store. -/
theorem removePassenger_check_order_witness :
    (removePassenger exDB "t1" "nobody" = (.passengerNotFound, exDB)) ∧
    (removePassenger exDB "t1" "p2" = (.wrongTrip, exDB) ∧ exP2 ∈ exDB.passengers) ∧
    (removePassenger exDB "t1" "p1" = (.noContent, deletePassengerRow exDB "p1")) := by
  refine ⟨?_, ⟨?_, ?_⟩, ?_⟩
  · exact ((removePassenger_check_order exDB "t1" "nobody").1 (by decide)).1
  · exact ((removePassenger_check_order exDB "t1" "p2").2.1 exP2 (by decide) (by decide)).1
  · exact ((removePassenger_check_order exDB "t1" "p2").2.1 exP2 (by decide) (by decide)).2.2
  · exact ((removePassenger_check_order exDB "t1" "p1").2.2 exP1 (by decide) (by decide)).1

/-- CLAIM C5.  Idempotence of the payment-status update: for a stored
passenger owned by the path's trip, running the update twice with the same
boolean leaves the store exactly as after the first run, and the second run
answers with the updated passenger and no error. -/
theorem setPaymentStatus_idempotent (db : DB) (tripId passengerId : String)
    (b : Bool) (p : Passenger)
    (hfind : findPassenger db passengerId = some p)
    (hown : p.tripId = tripId) :
    (setPaymentStatus
        (setPaymentStatus db tripId passengerId (.jbool b)).2
        tripId passengerId (.jbool b)).2 =
      (setPaymentStatus db tripId passengerId (.jbool b)).2 ∧
    (setPaymentStatus
        (setPaymentStatus db tripId passengerId (.jbool b)).2
        tripId passengerId (.jbool b)).1 =
      .ok { p with hasPaid := b } := by
  have hid : p.id = passengerId := by
    have := List.find?_some hfind
    simpa using this
  have h1 : (setPaymentStatus db tripId passengerId (.jbool b)).2 =
      updateHasPaid db passengerId b := by
    simp [setPaymentStatus, hfind, hown]
  have hfind2 : findPassenger (updateHasPaid db passengerId b) passengerId =
      some { p with hasPaid := b } := by
    rw [findPassenger_updateHasPaid, hfind]
    simp [hid]
  constructor
  · rw [h1]
    simp [setPaymentStatus, hfind2, hown, updateHasPaid_idem]
  · rw [h1]
    simp [setPaymentStatus, hfind2, hown]

/-- Witness for C5: both runs evaluated on the concrete store. -/
theorem setPaymentStatus_idempotent_witness :
    (setPaymentStatus
        (setPaymentStatus exDB "t1" "p1" (.jbool true)).2
        "t1" "p1" (.jbool true)).2 =
      (setPaymentStatus exDB "t1" "p1" (.jbool true)).2 ∧
    (setPaymentStatus
        (setPaymentStatus exDB "t1" "p1" (.jbool true)).2
        "t1" "p1" (.jbool true)).1 =
      .ok { exP1 with hasPaid := true } :=
  setPaymentStatus_idempotent exDB "t1" "p1" true exP1 (by decide) (by decide)

/-- CLAIM C9.  Frame condition of a successful payment-status update: the
trip table is untouched, the passenger table is the element-wise rewrite
that flips only the addressed row's flag, every other row survives
verbatim, and every surviving row keeps its id, name, cpf, seat number and
trip ownership. -/
theorem setPaymentStatus_frame (db : DB) (tripId passengerId : String)
    (b : Bool) (p : Passenger)
    (hfind : findPassenger db passengerId = some p)
    (hown : p.tripId = tripId) :
    (setPaymentStatus db tripId passengerId (.jbool b)).2.trips = db.trips ∧
    (setPaymentStatus db tripId passengerId (.jbool b)).2.passengers =
      db.passengers.map
        (fun q => if q.id = passengerId then { q with hasPaid := b } else q) ∧
    (∀ q ∈ db.passengers, q.id ≠ passengerId →
      q ∈ (setPaymentStatus db tripId passengerId (.jbool b)).2.passengers) ∧
    (∀ q ∈ (setPaymentStatus db tripId passengerId (.jbool b)).2.passengers,
      ∃ r ∈ db.passengers,
        q.id = r.id ∧ q.name = r.name ∧ q.cpf = r.cpf ∧
        q.seatNumber = r.seatNumber ∧ q.tripId = r.tripId) := by
  have h2 : (setPaymentStatus db tripId passengerId (.jbool b)).2 =
      updateHasPaid db passengerId b := by
    simp [setPaymentStatus, hfind, hown]
  refine ⟨?_, ?_, ?_, ?_⟩
  · rw [h2]; rfl
  · rw [h2]; rfl
  · intro q hq hne
    rw [h2]
    simp only [updateHasPaid, List.mem_map]
    exact ⟨q, hq, by simp [hne]⟩
  · intro q hq
    rw [h2] at hq
    simp only [updateHasPaid, List.mem_map] at hq
    obtain ⟨r, hr, hrq⟩ := hq
    refine ⟨r, hr, ?_⟩
    subst hrq
    by_cases h : r.id = passengerId <;> simp [h]

/-- Witness for C9: the frame condition evaluated on the concrete store. -/
theorem setPaymentStatus_frame_witness :
    (setPaymentStatus exDB "t1" "p1" (.jbool true)).2.trips = exDB.trips ∧
    (setPaymentStatus exDB "t1" "p1" (.jbool true)).2.passengers =
      exDB.passengers.map
        (fun q => if q.id = "p1" then { q with hasPaid := true } else q) := by
  have h := setPaymentStatus_frame exDB "t1" "p1" true exP1 (by decide) (by decide)
  exact ⟨h.1, h.2.1⟩

/-- Statement that refutes claim C2 on the sources: a concrete store with a
single trip whose serialized listing carries no seatsInfo member, so the
listing of the authenticated variant is not the augmented one the claim
describes. -/
theorem listTrips_not_enhanced : ¬ listTripsEnhancedClaim := by
  intro h
  obtain ⟨hfields, _⟩ := h ⟨[exTrip1], []⟩
  obtain ⟨o, ho, hseats, _⟩ := hfields exTrip1 (by simp)
  have : o = Trip.toJson exTrip1 := by
    simpa [listTrips] using ho
  subst this
  simp [Trip.toJson, List.lookup] at hseats

/-- CLAIM C2, amended.  The authenticated variant's `GET /api/trips` returns
the stored trips in store order, each serialized with exactly the six table
columns and no seatsInfo member; no ordering by departure date and no
occupancy computation is applied anywhere. -/
theorem listTrips_plain (db : DB) :
    listTrips db = db.trips.map Trip.toJson ∧
    (∀ t : Trip, (Trip.toJson t).map Prod.fst =
      ["id", "destination", "departureDate", "departureTime", "price", "busType"]) ∧
    (∀ t : Trip, (Trip.toJson t).lookup "seatsInfo" = none) := by
  refine ⟨rfl, ?_, ?_⟩
  · intro t; rfl
  · intro t; rfl

/-! Preservation of the datastore invariant along every operation. -/

/-- The empty store satisfies the datastore invariant. -/
theorem dbInv_empty : DBInv DB.empty :=
  ⟨List.nodup_nil, List.nodup_nil, List.nodup_nil, fun p hp => absurd hp (List.not_mem_nil p)⟩

/-- Updating the payment flag does not change a row's cpf. -/
theorem updRow_cpf (pid : String) (b : Bool) (p : Passenger) :
    (if p.id = pid then { p with hasPaid := b } else p).cpf = p.cpf := by
  split <;> rfl

/-- Updating the payment flag does not change a row's trip ownership. -/
theorem updRow_tripId (pid : String) (b : Bool) (p : Passenger) :
    (if p.id = pid then { p with hasPaid := b } else p).tripId = p.tripId := by
  split <;> rfl

/-- Every operation preserves the datastore invariant. -/
theorem dbInv_applyOp (db : DB) (op : Op) (h : DBInv db) : DBInv (applyOp db op) := by
  obtain ⟨htid, hpid, hcpf, href⟩ := h
  cases op with
  | createTrip newId dest dd dt price bt =>
    simp only [applyOp, createTrip]
    split
    · exact ⟨htid, hpid, hcpf, href⟩
    · rename_i hnew
      constructor
      · simp only [List.map_append, List.map_cons, List.map_nil, List.nodup_append,
          List.nodup_cons, List.not_mem_nil, not_false_iff, List.nodup_nil, true_and,
          and_true, List.disjoint_singleton]
        refine ⟨htid, ?_⟩
        intro hmem
        apply hnew
        rw [List.any_eq_true]
        obtain ⟨t, ht, hid⟩ := List.mem_map.mp hmem
        exact ⟨t, ht, by simp [hid]⟩
      · exact hpid
      · exact hcpf
      · intro p hp
        obtain ⟨t, ht, hid⟩ := href p hp
        exact ⟨t, List.mem_append_left _ ht, hid⟩
  | addPassenger tid newId name cpf seat paid =>
    simp only [applyOp, addPassenger]
    split
    · exact ⟨htid, hpid, hcpf, href⟩
    · split
      · exact ⟨htid, hpid, hcpf, href⟩
      · split
        · exact ⟨htid, hpid, hcpf, href⟩
        · rename_i hcpfNew hidNew htripEx
          constructor
          · exact htid
          · simp only [List.map_append, List.map_cons, List.map_nil, List.nodup_append,
              List.nodup_cons, List.not_mem_nil, not_false_iff, List.nodup_nil, true_and,
              and_true, List.disjoint_singleton]
            refine ⟨hpid, ?_⟩
            intro hmem
            apply hidNew
            rw [List.any_eq_true]
            obtain ⟨q, hq, hid⟩ := List.mem_map.mp hmem
            exact ⟨q, hq, by simp [hid]⟩
          · simp only [List.map_append, List.map_cons, List.map_nil, List.nodup_append,
              List.nodup_cons, List.not_mem_nil, not_false_iff, List.nodup_nil, true_and,
              and_true, List.disjoint_singleton]
            refine ⟨hcpf, ?_⟩
            intro hmem
            apply hcpfNew
            rw [List.any_eq_true]
            obtain ⟨q, hq, hc⟩ := List.mem_map.mp hmem
            exact ⟨q, hq, by simp [hc]⟩
          · intro p hp
            rcases List.mem_append.mp hp with hp | hp
            · obtain ⟨t, ht, hid⟩ := href p hp
              exact ⟨t, ht, hid⟩
            · have hpeq : p = ⟨newId, name, cpf, seat, paid, tid⟩ := by
                simpa using hp
              subst hpeq
              rw [not_not, List.any_eq_true] at htripEx
              obtain ⟨t, ht, hid⟩ := htripEx
              exact ⟨t, ht, by simpa using hid⟩
  | setPayment tid pid v =>
    cases v with
    | jbool b =>
      cases hf : findPassenger db pid with
      | none =>
        simp only [applyOp, setPaymentStatus, hf]
        exact ⟨htid, hpid, hcpf, href⟩
      | some p =>
        by_cases hown : p.tripId ≠ tid
        · simp only [applyOp, setPaymentStatus, hf, if_pos hown]
          exact ⟨htid, hpid, hcpf, href⟩
        · simp only [applyOp, setPaymentStatus, hf, if_neg hown]
          constructor
          · exact htid
          · simp only [updateHasPaid, List.map_map]
            have hc : (Passenger.id ∘ fun p =>
                if p.id = pid then { p with hasPaid := b } else p) = Passenger.id := by
              funext q
              simp only [Function.comp_apply, updRow_id]
            rw [hc]
            exact hpid
          · simp only [updateHasPaid, List.map_map]
            have hc : (Passenger.cpf ∘ fun p =>
                if p.id = pid then { p with hasPaid := b } else p) = Passenger.cpf := by
              funext q
              simp only [Function.comp_apply, updRow_cpf]
            rw [hc]
            exact hcpf
          · intro q hq
            simp only [updateHasPaid, List.mem_map] at hq
            obtain ⟨r, hr, hrq⟩ := hq
            obtain ⟨t, ht, hid⟩ := href r hr
            refine ⟨t, ht, ?_⟩
            rw [← hrq, updRow_tripId, hid]
    | jstr s => exact ⟨htid, hpid, hcpf, href⟩
    | jnum n => exact ⟨htid, hpid, hcpf, href⟩
    | jnull => exact ⟨htid, hpid, hcpf, href⟩
    | jobj fs => exact ⟨htid, hpid, hcpf, href⟩
  | removePassenger tid pid =>
    cases hf : findPassenger db pid with
    | none =>
      simp only [applyOp, removePassenger, hf]
      exact ⟨htid, hpid, hcpf, href⟩
    | some p =>
      by_cases hown : p.tripId ≠ tid
      · simp only [applyOp, removePassenger, hf, if_pos hown]
        exact ⟨htid, hpid, hcpf, href⟩
      · simp only [applyOp, removePassenger, hf, if_neg hown, deletePassengerRow]
        constructor
        · exact htid
        · exact ((List.filter_sublist _).map Passenger.id).nodup hpid
        · exact ((List.filter_sublist _).map Passenger.cpf).nodup hcpf
        · intro q hq
          exact href q (List.mem_of_mem_filter hq)
  | deleteTrip tid =>
    simp only [applyOp, deleteTripCascade]
    constructor
    · exact ((List.filter_sublist _).map Trip.id).nodup htid
    · exact ((List.filter_sublist _).map Passenger.id).nodup hpid
    · exact ((List.filter_sublist _).map Passenger.cpf).nodup hcpf
    · intro q hq
      rw [List.mem_filter] at hq
      obtain ⟨hqmem, hqne⟩ := hq
      obtain ⟨t, ht, hid⟩ := href q hqmem
      refine ⟨t, ?_, hid⟩
      rw [List.mem_filter]
      refine ⟨ht, ?_⟩
      simp only [decide_eq_true_iff] at hqne ⊢
      rw [hid]
      exact hqne

/-- The invariant holds after every run from an invariant-satisfying
state. -/
theorem dbInv_foldl (ops : List Op) :
    ∀ db : DB, DBInv db → DBInv (ops.foldl applyOp db) := by
  induction ops with
  | nil => intro db h; exact h
  | cons op rest ih =>
    intro db h
    exact ih (applyOp db op) (dbInv_applyOp db op h)

/-- Every reachable store satisfies the datastore invariant. -/
theorem reachable_dbInv (db : DB) (h : Reachable db) : DBInv db := by
  obtain ⟨ops, rfl⟩ := h
  exact dbInv_foldl ops DB.empty dbInv_empty

/-- CLAIM C4.  In every reachable store the cpf column is globally unique,
and an insert whose cpf equals that of any stored passenger (owned by any
trip) is answered with the generic persistence error, status 500, leaving
the passenger set unchanged.  The failure comes from the modelled datastore
constraint, not from any service-level pre-check: the handler itself calls
the insert unconditionally. -/
theorem cpf_globally_unique (db : DB) (h : Reachable db) :
    (db.passengers.map Passenger.cpf).Nodup ∧
    (∀ tripId newId name cpf seatNumber : String, ∀ hasPaid : Bool,
      ∀ q ∈ db.passengers, q.cpf = cpf →
        addPassenger db tripId newId name cpf seatNumber hasPaid =
          (.persistenceError, db) ∧
        (addPassenger db tripId newId name cpf seatNumber hasPaid).1.status = 500) := by
  refine ⟨(reachable_dbInv db h).cpfNodup, ?_⟩
  intro tripId newId name cpf seatNumber hasPaid q hq hcpf
  have hany : db.passengers.any (fun r => r.cpf == cpf) = true := by
    rw [List.any_eq_true]
    exact ⟨q, hq, by simp [hcpf]⟩
  constructor
  · simp [addPassenger, hany]
  · simp [addPassenger, hany, AddResult.status]

/-- Operation sequence used by the reachability witnesses: one trip and one
passenger inserted into the empty store. -/
def exOps : List Op :=
  [ .createTrip "t1" "Rio" "2024-05-01" "08:00" 100 .medium,
    .addPassenger "t1" "p1" "Ana" "111" "12" false ]

/-- The store those operations reach. -/
def exReached : DB := runOps exOps

/-- Witness for C4: on the concrete reachable store, cpfs are unique and a
duplicate-cpf insert fails with 500 and no change. -/
theorem cpf_globally_unique_witness :
    (exReached.passengers.map Passenger.cpf).Nodup ∧
    addPassenger exReached "t1" "p9" "Eva" "111" "09" true =
      (.persistenceError, exReached) := by
  have h := cpf_globally_unique exReached ⟨exOps, rfl⟩
  refine ⟨h.1, ?_⟩
  exact (h.2 "t1" "p9" "Eva" "111" "09" true
    ⟨"p1", "Ana", "111", "12", false, "t1"⟩ (by decide) rfl).1

/-- CLAIM C6.  The cascade delete of a trip removes every passenger row
referencing it, and in every reachable store every passenger references an
existing trip (no orphan rows). -/
theorem deleteTrip_cascade_no_orphans (db : DB) (h : Reachable db) (tid : String) :
    (∀ p ∈ (deleteTripCascade db tid).passengers, p.tripId ≠ tid) ∧
    (∀ p ∈ db.passengers, ∃ t ∈ db.trips, t.id = p.tripId) := by
  constructor
  · intro p hp
    rw [deleteTripCascade] at hp
    have := (List.mem_filter.mp hp).2
    simpa using this
  · exact (reachable_dbInv db h).refInt

/-- Witness for C6: cascade delete of the populated trip on the concrete
reachable store, and referential integrity of that store. -/
theorem deleteTrip_cascade_no_orphans_witness :
    (∀ p ∈ (deleteTripCascade exReached "t1").passengers, p.tripId ≠ "t1") ∧
    (∀ p ∈ exReached.passengers, ∃ t ∈ exReached.trips, t.id = p.tripId) :=
  deleteTrip_cascade_no_orphans exReached ⟨exOps, rfl⟩ "t1"

/-- Full handler response of `GET /api/trips/:tripId/passengers`: the
handler has no not-found branch, so outside the catch-all it always answers
`res.json(...)`, status 200. -/
def listPassengersResponse (db : DB) (tripId : String) : Nat × List Passenger :=
  (200, listPassengers db tripId)

/-- CLAIM C10.  The passenger listing never signals NotFound: for every
trip id it answers 200 with exactly the rows whose tripId matches, and on a
reachable store a trip id that matches no trip yields the empty list. -/
theorem listPassengers_never_notFound (db : DB) (tripId : String) :
    (listPassengersResponse db tripId).1 = 200 ∧
    (listPassengersResponse db tripId).2 =
      db.passengers.filter (fun p => p.tripId == tripId) ∧
    (Reachable db → findTrip db tripId = none →
      (listPassengersResponse db tripId).2 = []) := by
  refine ⟨rfl, rfl, ?_⟩
  intro hr hnone
  have href := (reachable_dbInv db hr).refInt
  simp only [listPassengersResponse, listPassengers]
  rw [List.filter_eq_nil_iff]
  intro p hp
  simp only [beq_iff_eq]
  intro htrip
  have ⟨t, ht, hid⟩ := href p hp
  rw [findTrip, List.find?_eq_none] at hnone
  exact hnone t ht (by simp [hid, htrip])

/-- Witness for C10: the concrete reachable store queried with an unknown
trip id yields 200 and the empty list. -/
theorem listPassengers_never_notFound_witness :
    (listPassengersResponse exReached "ghost").1 = 200 ∧
    (listPassengersResponse exReached "ghost").2 = [] := by
  have h := listPassengers_never_notFound exReached "ghost"
  exact ⟨h.1, h.2.2 ⟨exOps, rfl⟩ (by decide)⟩

/-- Data-row cells of the flattened per-passenger rows are the rows
themselves: every cell a row emits uses the 10-point font. -/
theorem dataCells_flatten_rows (tableTop : Int) (n : Nat) (ps : List Passenger) :
    dataCells
      (((List.enumFrom n ps).map fun ip => passengerRow tableTop ip.1 ip.2).flatten) =
    (((List.enumFrom n ps).map fun ip => passengerRow tableTop ip.1 ip.2).flatten) := by
  induction ps generalizing n with
  | nil => rfl
  | cons p rest ih =>
    simp only [List.enumFrom, List.map_cons, List.flatten_cons]
    rw [dataCells, List.filter_append, ← dataCells, ← dataCells, ih]
    rfl

/-- Total number of data cells: four per passenger. -/
theorem length_flatten_rows (tableTop : Int) (n : Nat) (ps : List Passenger) :
    (((List.enumFrom n ps).map fun ip => passengerRow tableTop ip.1 ip.2).flatten).length =
      4 * ps.length := by
  induction ps generalizing n with
  | nil => rfl
  | cons p rest ih =>
    simp only [List.enumFrom, List.map_cons, List.flatten_cons, List.length_append,
      List.length_cons, ih]
    simp only [passengerRow, List.length_cons, List.length_nil]
    omega

/-- The data cells of a rendered manifest are exactly the flattened
per-passenger rows: the title, header cells (12-point) and separator are
filtered out and nothing else is. -/
theorem dataCells_renderManifest (trip : Trip) (ps : List Passenger) (tableTop : Int) :
    dataCells (renderManifest trip ps tableTop) =
      ((ps.enum.map fun ip => passengerRow tableTop ip.1 ip.2).flatten) := by
  rw [renderManifest, List.enum, dataCells, List.filter_append]
  have hflat := dataCells_flatten_rows tableTop 0 ps
  rw [dataCells] at hflat
  rw [hflat]
  rfl

/-- CLAIM C7.  Layout of the manifest for an existing trip: the response is
the 200 PDF stream; its data cells are exactly four per passenger, the
passenger at index idx drawn at vertical offset tableTop + (idx + 2) * 20
with name at x=50, cpf at x=250, seat at x=400 and the payment flag as the
localized Sim/Nao token at x=480; with an empty roster the document is the
title, the header row and the separator only, with no data cell. -/
theorem manifest_layout (db : DB) (tripId : String) (trip : Trip) (tableTop : Int)
    (h : findTrip db tripId = some trip) :
    ((getPassengersPdf db tripId tableTop).status = 200 ∧
     getPassengersPdf db tripId tableTop =
       .pdf
         [ ("Content-Type", "application/pdf"),
           ("Content-Disposition", "attachment; filename=passageiros_" ++ tripId ++ ".pdf") ]
         (renderManifest trip (db.passengers.filter (fun p => p.tripId == trip.id)) tableTop) ∧
     dataCells
         (renderManifest trip (db.passengers.filter (fun p => p.tripId == trip.id)) tableTop) =
       (((db.passengers.filter (fun p => p.tripId == trip.id)).enum.map fun ip =>
           [ PdfCmd.text 10 ip.2.name 50 (tableTop + ((ip.1 : Int) + 2) * 20),
             PdfCmd.text 10 ip.2.cpf 250 (tableTop + ((ip.1 : Int) + 2) * 20),
             PdfCmd.text 10 ip.2.seatNumber 400 (tableTop + ((ip.1 : Int) + 2) * 20),
             PdfCmd.text 10 (if ip.2.hasPaid then "Sim" else "Não") 480
               (tableTop + ((ip.1 : Int) + 2) * 20) ]).flatten) ∧
     (dataCells
         (renderManifest trip (db.passengers.filter (fun p => p.tripId == trip.id)) tableTop)).length =
       4 * (db.passengers.filter (fun p => p.tripId == trip.id)).length ∧
     (db.passengers.filter (fun p => p.tripId == trip.id) = [] →
       renderManifest trip (db.passengers.filter (fun p => p.tripId == trip.id)) tableTop =
         [ .titleText ("Passageiros da Viagem para " ++ trip.destination),
           .text 12 "Nome" 50 tableTop,
           .text 12 "CPF" 250 tableTop,
           .text 12 "Assento" 400 tableTop,
           .text 12 "Pago" 480 tableTop,
           .sepLine ])) := by
  refine ⟨?_, ?_, ?_, ?_, ?_⟩
  · simp [getPassengersPdf, h, PdfResponse.status]
  · simp [getPassengersPdf, h]
  · exact dataCells_renderManifest trip _ tableTop
  · rw [dataCells_renderManifest, List.enum, length_flatten_rows]
  · intro hempty
    rw [hempty]
    rfl

/-- Concrete store for the empty-roster manifest witness: one trip, no
passengers. -/
def exDBNoPassengers : DB := ⟨[exTrip1], []⟩

/-- Witness for C7: the manifest of the passenger-free trip evaluated on the
concrete store. -/
theorem manifest_layout_witness :
    (getPassengersPdf exDBNoPassengers "t1" 140).status = 200 ∧
    renderManifest exTrip1 (exDBNoPassengers.passengers.filter
        (fun p => p.tripId == exTrip1.id)) 140 =
      [ .titleText "Passageiros da Viagem para Rio",
        .text 12 "Nome" 50 140,
        .text 12 "CPF" 250 140,
        .text 12 "Assento" 400 140,
        .text 12 "Pago" 480 140,
        .sepLine ] := by
  have h := manifest_layout exDBNoPassengers "t1" exTrip1 140 (by decide)
  exact ⟨h.1, h.2.2.2.2 rfl⟩

/-- CLAIM C8.  Missing-trip handling of the manifest endpoint: when no trip
matches the path id the response is the bare 404 produced before the
document is allocated, carrying no header and no drawing command; the PDF
content-type and attachment headers appear only on the success branch,
where the trip exists. -/
theorem manifest_notFound_before_headers (db : DB) (tripId : String) (tableTop : Int) :
    ((findTrip db tripId = none →
        getPassengersPdf db tripId tableTop = .notFound ∧
        (getPassengersPdf db tripId tableTop).status = 404 ∧
        (getPassengersPdf db tripId tableTop).headers = []) ∧
     (∀ hs : List (String × String), ∀ cs : List PdfCmd,
        getPassengersPdf db tripId tableTop = .pdf hs cs →
        (∃ trip, findTrip db tripId = some trip) ∧
        hs = [ ("Content-Type", "application/pdf"),
               ("Content-Disposition",
                  "attachment; filename=passageiros_" ++ tripId ++ ".pdf") ])) := by
  constructor
  · intro h
    refine ⟨?_, ?_, ?_⟩ <;> simp [getPassengersPdf, h, PdfResponse.status, PdfResponse.headers]
  · intro hs cs h
    cases hf : findTrip db tripId with
    | none => rw [getPassengersPdf, hf] at h; exact absurd h (by simp)
    | some trip =>
      rw [getPassengersPdf, hf] at h
      refine ⟨⟨trip, rfl⟩, ?_⟩
      cases h
      rfl

/-- Witness for C8: both branches evaluated on concrete stores. -/
theorem manifest_notFound_before_headers_witness :
    (getPassengersPdf exDB "ghost" 140 = .notFound ∧
     (getPassengersPdf exDB "ghost" 140).headers = []) ∧
    ((∃ trip, findTrip exDB "t1" = some trip) ∧
      (getPassengersPdf exDB "t1" 140).headers =
        [ ("Content-Type", "application/pdf"),
          ("Content-Disposition", "attachment; filename=passageiros_t1.pdf") ]) := by
  constructor
  · have h := (manifest_notFound_before_headers exDB "ghost" 140).1 (by decide)
    exact ⟨h.1, h.2.2⟩
  · cases hpdf : getPassengersPdf exDB "t1" 140 with
    | notFound =>
      exact absurd hpdf (by decide)
    | pdf hs cs =>
      have h := (manifest_notFound_before_headers exDB "t1" 140).2 hs cs hpdf
      refine ⟨h.1, ?_⟩
      simp [PdfResponse.headers, h.2]
